import Mathlib

/-!
Shallow embedding of the two sketch variants of this repository:
`src/unnamed/part_000` (the MIDI variant: per-particle random lifespan,
note-on/note-off emission to an optional MIDI output) and
`src/sketch-03.js` (the fixed-lifespan variant: global `POINT_LIFESPAN`,
steering forces in `Point.update`).

Number representation: JavaScript numbers are modelled as exact rationals
(ℚ).  Randomness (`random.range`, `random.chance`) and the per-particle
sine/cosine samples of the fixed variant's `update` are supplied as oracle
inputs, so every definition is a deterministic function of the state and
the oracle, exactly mirroring the source's control flow.  The MIDI output
handle is the boolean `midi` (present / absent); `midiOutput.send(a)` is
modelled by appending the list `a` to an event trace.
-/

/-! ### Shared constants (both variants use fps 60 and a 1080×1350 canvas) -/

/-- `settings.fps` in both files. -/
def FPS : ℚ := 60

/-- `settings.dimensions[0]`. -/
def WIDTH : ℚ := 1080

/-- `settings.dimensions[1]`. -/
def HEIGHT : ℚ := 1350

/-- `MIN_ACTIVE_POINTS` (150 in both files). -/
def MIN_ACTIVE_POINTS : Nat := 150

/-- `POINT_LIFESPAN` of `src/sketch-03.js` (fixed-lifespan variant). -/
def POINT_LIFESPAN : ℚ := 120

/-- `POINT_LIFESPAN_MIN` of `src/unnamed/part_000`. -/
def POINT_LIFESPAN_MIN : ℚ := 60

/-- `POINT_LIFESPAN_MAX` of `src/unnamed/part_000`. -/
def POINT_LIFESPAN_MAX : ℚ := 180

/-- `NOTE_MIN` of `src/unnamed/part_000`. -/
def NOTE_MIN : ℚ := 36

/-- `NOTE_MAX` of `src/unnamed/part_000`. -/
def NOTE_MAX : ℚ := 72

/-- `VELOCITY_MIN` of `src/unnamed/part_000`. -/
def VELOCITY_MIN : ℚ := 40

/-- `VELOCITY_MAX` of `src/unnamed/part_000`. -/
def VELOCITY_MAX : ℚ := 100

/-! ### Library helpers -/

/-- `math.mapRange` of `canvas-sketch-util/math` (no clamping):
`(value - inMin) / (inMax - inMin) * (outMax - outMin) + outMin`. -/
def mathMapRange (value inMin inMax outMin outMax : ℚ) : ℚ :=
  (value - inMin) / (inMax - inMin) * (outMax - outMin) + outMin

/-- `math.clamp` of `canvas-sketch-util/math`. -/
def mathClamp (value lo hi : ℚ) : ℚ :=
  max lo (min hi value)

/-- JavaScript `Math.round`: rounds half-way cases toward positive
infinity, i.e. `⌊x + 1/2⌋`. -/
def jsRound (q : ℚ) : ℤ :=
  ⌊q + 1 / 2⌋

/-- The local helper `mapRange` of `src/unnamed/part_000` (lines 169-171):
`Math.round((value - inMin) * (outMax - outMin) / (inMax - inMin) + outMin)`. -/
def mapRange (value inMin inMax outMin outMax : ℚ) : ℤ :=
  jsRound ((value - inMin) * (outMax - outMin) / (inMax - inMin) + outMin)

/-- Both files run each new coordinate through
`if (c < 0) c = limit; if (c > limit) c = 0;` after adding the velocity. -/
def wrapCoord (limit c : ℚ) : ℚ :=
  let c1 := if c < 0 then limit else c
  if c1 > limit then 0 else c1

/-! ### MIDI variant (`src/unnamed/part_000`) -/

/-- The `Vector` class of `src/unnamed/part_000` (only `x`, `y` are used by
the simulation state). -/
structure Vec where
  x : ℚ
  y : ℚ
deriving DecidableEq

/-- The `Point` class of `src/unnamed/part_000`: position, velocity, a
constant radius 3, age (seconds) and a per-particle lifespan. -/
structure MPoint where
  pos : Vec
  vel : Vec
  radius : ℚ
  age : ℚ
  lifespan : ℚ
deriving DecidableEq

/-- The random draws consumed by one `new Point(x, y)` call in
`src/unnamed/part_000`: the call-site `random.range(0, width/height)` pair
and the constructor's velocity and lifespan draws. -/
structure SpawnM where
  x : ℚ
  y : ℚ
  vx : ℚ
  vy : ℚ
  life : ℚ

/-- `new Point(x, y)` of `src/unnamed/part_000`: age starts at 0, radius 3,
lifespan drawn by the constructor. -/
def mkPointM (s : SpawnM) : MPoint :=
  { pos := ⟨s.x, s.y⟩, vel := ⟨s.vx, s.vy⟩, radius := 3, age := 0, lifespan := s.life }

/-- `Point.update` of `src/unnamed/part_000` (lines 146-154): add the
velocity to the position, then wrap each coordinate. -/
def updateM (w h : ℚ) (p : MPoint) : MPoint :=
  { p with pos := ⟨wrapCoord w (p.pos.x + p.vel.x), wrapCoord h (p.pos.y + p.vel.y)⟩ }

/-- `mapRange(point.pos.x, 0, width, NOTE_MIN, NOTE_MAX)` (line 101). -/
def midiNoteOf (w x : ℚ) : ℤ :=
  mapRange x 0 w NOTE_MIN NOTE_MAX

/-- `mapRange(point.pos.y, 0, height, VELOCITY_MIN, VELOCITY_MAX)` (line 102). -/
def velocityOf (h y : ℚ) : ℤ :=
  mapRange y 0 h VELOCITY_MIN VELOCITY_MAX

/-- The state change applied to one visited particle in the MIDI variant's
`forEach` body: `point.update(...)` followed by `point.age += 1 / settings.fps`. -/
def stepPointM (w h : ℚ) (p : MPoint) : MPoint :=
  let p1 := updateM w h p
  { p1 with age := p1.age + 1 / FPS }

/-- The `points.forEach` pass of `src/unnamed/part_000` (lines 96-117).
For each visited particle: `update`, compute `midiNote`/`velocity` from the
new position, send note-on `[144, note, velocity]` when `age === 0 &&
midiOutput`, increment age by `1/fps`, and when `age >= lifespan &&
midiOutput` send note-off `[128, note, 0]` and `splice` the particle out.
Because `splice` removes the element at the visited index during a forward
`forEach`, the element that shifts into that index is not visited: in the
removal branch the next list element is carried over unprocessed.
Returns the surviving particle list and the trace of `midiOutput.send`
arguments. -/
def updatePass (midi : Bool) (w h : ℚ) : List MPoint → List MPoint × List (List ℤ)
  | [] => ([], [])
  | p :: rest =>
    let p1 := updateM w h p
    let note := midiNoteOf w p1.pos.x
    let vel := velocityOf h p1.pos.y
    let onE : List (List ℤ) := if p1.age = 0 ∧ midi then [[144, note, vel]] else []
    let p2 : MPoint := { p1 with age := p1.age + 1 / FPS }
    if p2.age ≥ p2.lifespan ∧ midi then
      match rest with
      | [] => ([], onE ++ [[128, note, 0]])
      | q :: rest' =>
        let r := updatePass midi w h rest'
        (q :: r.1, onE ++ [[128, note, 0]] ++ r.2)
    else
      let r := updatePass midi w h rest
      (p2 :: r.1, onE ++ r.2)

/-- The top-up loop `while (points.length < MIN_ACTIVE_POINTS) points.push(new Point(...))`
(lines 59-64); the oracle supplies the i-th spawn's random draws. -/
def topUpM (o : Nat → SpawnM) (pts : List MPoint) : List MPoint :=
  pts ++ (List.range (MIN_ACTIVE_POINTS - pts.length)).map (fun i => mkPointM (o i))

/-- Per-frame randomness of the MIDI variant: the top-up spawn draws, the
`random.chance(THOUGHTS_PER_SECOND / 60)` outcome, and the draws of the
extra spawn used when the chance fires. -/
structure FrameRngM where
  spawn : Nat → SpawnM
  chance : Bool
  extra : SpawnM

/-- `if (random.chance(THOUGHTS_PER_SECOND / 60)) points.push(new Point(...))`
(lines 67-71). -/
def chanceSpawnM (r : FrameRngM) (pts : List MPoint) : List MPoint :=
  if r.chance then pts ++ [mkPointM r.extra] else pts

/-- One frame of the MIDI variant's render function (state-changing parts,
in source order): top-up to the floor, probabilistic extra spawn, then the
update/draw/MIDI/removal `forEach` pass.  The connection drawing (lines
76-93) reads the state but does not change it. -/
def stepM (midi : Bool) (r : FrameRngM) (pts : List MPoint) : List MPoint × List (List ℤ) :=
  updatePass midi WIDTH HEIGHT (chanceSpawnM r (topUpM r.spawn pts))

/-! ### Fixed-lifespan variant (`src/sketch-03.js`) -/

/-- The `Point` class of `src/sketch-03.js`: position, velocity, an unused
acceleration vector, a constant radius 3 and an age; the lifespan is the
global `POINT_LIFESPAN`. -/
structure FPoint where
  pos : Vec
  vel : Vec
  acc : Vec
  radius : ℚ
  age : ℚ
deriving DecidableEq

/-- The random draws consumed by one `new Point(x, y)` call in
`src/sketch-03.js`: the call-site position pair and the constructor's
velocity draws. -/
structure SpawnF where
  x : ℚ
  y : ℚ
  vx : ℚ
  vy : ℚ

/-- `new Point(x, y)` of `src/sketch-03.js`: age 0, radius 3, `acc = (0,0)`. -/
def mkPointF (s : SpawnF) : FPoint :=
  { pos := ⟨s.x, s.y⟩, vel := ⟨s.vx, s.vy⟩, acc := ⟨0, 0⟩, radius := 3, age := 0 }

/-- The inputs consumed by one `Point.update` call of `src/sketch-03.js`:
the samples `s = Math.sin(time * 0.2 + pos.y * 0.5)` and
`c = Math.cos(time * 0.2 + pos.x * 0.5)` and the two jitter draws
`random.range(-0.005, 0.005)`.  They are supplied as inputs so that the
embedding stays inside ℚ; no claim depends on their values. -/
structure FJit where
  s : ℚ
  c : ℚ
  jx : ℚ
  jy : ℚ

/-- `Point.applyBoundaries` of `src/sketch-03.js` (lines 129-135). -/
def applyBoundaries (w h : ℚ) (p : FPoint) : FPoint :=
  let margin : ℚ := 100
  let vx1 := if p.pos.x < margin then p.vel.x + 1 / 100 else p.vel.x
  let vx2 := if p.pos.x > w - margin then vx1 - 1 / 100 else vx1
  let vy1 := if p.pos.y < margin then p.vel.y + 1 / 100 else p.vel.y
  let vy2 := if p.pos.y > h - margin then vy1 - 1 / 100 else vy1
  { p with vel := ⟨vx2, vy2⟩ }

/-- `Point.update` of `src/sketch-03.js` (lines 137-153): boundary
steering, sinusoidal forces, jitter, position integration, velocity
clamping to ±0.4, then coordinate wraparound. -/
def updateF (w h : ℚ) (o : FJit) (p : FPoint) : FPoint :=
  let p1 := applyBoundaries w h p
  let vx := p1.vel.x + o.s * (2 / 100) + o.jx
  let vy := p1.vel.y + o.c * (2 / 100) + o.jy
  let px := p1.pos.x + vx
  let py := p1.pos.y + vy
  let speedLimit : ℚ := 2 / 5
  { p1 with
    pos := ⟨wrapCoord w px, wrapCoord h py⟩,
    vel := ⟨mathClamp vx (-speedLimit) speedLimit, mathClamp vy (-speedLimit) speedLimit⟩ }

/-- The `points.forEach` pass of `src/sketch-03.js` (lines 70-79): for each
visited particle, `update`, `draw`, `age += 1 / settings.fps`, and `splice`
when `age >= POINT_LIFESPAN`.  As in the MIDI variant, a `splice` during
the forward `forEach` makes the element that shifts into the removed index
unvisited, so the removal branch carries the next element over unprocessed.
The counter `k` indexes the per-visit `update` inputs. -/
def updatePassF (w h : ℚ) (o : Nat → FJit) : Nat → List FPoint → List FPoint
  | _, [] => []
  | k, p :: rest =>
    let p1 := updateF w h (o k) p
    let p2 : FPoint := { p1 with age := p1.age + 1 / FPS }
    if p2.age ≥ POINT_LIFESPAN then
      match rest with
      | [] => []
      | q :: rest' => q :: updatePassF w h o (k + 1) rest'
    else
      p2 :: updatePassF w h o (k + 1) rest

/-- The top-up loop of `src/sketch-03.js` (lines 34-38). -/
def topUpF (o : Nat → SpawnF) (pts : List FPoint) : List FPoint :=
  pts ++ (List.range (MIN_ACTIVE_POINTS - pts.length)).map (fun i => mkPointF (o i))

/-- Per-frame randomness of the fixed-lifespan variant. -/
structure FrameRngF where
  spawn : Nat → SpawnF
  chance : Bool
  extra : SpawnF
  jit : Nat → FJit

/-- `if (random.chance(THOUGHTS_PER_SECOND / 60)) points.push(new Point(...))`
(lines 41-45 of `src/sketch-03.js`). -/
def chanceSpawnF (r : FrameRngF) (pts : List FPoint) : List FPoint :=
  if r.chance then pts ++ [mkPointF r.extra] else pts

/-- One frame of the fixed-lifespan variant's render function
(state-changing parts, in source order): top-up to the floor, probabilistic
extra spawn, then the update/draw/removal `forEach` pass.  The connection
drawing (lines 50-67) reads the state but does not change it. -/
def stepF (r : FrameRngF) (pts : List FPoint) : List FPoint :=
  updatePassF WIDTH HEIGHT r.jit 0 (chanceSpawnF r (topUpF r.spawn pts))

/-! ### Connection threshold and edge drawing (both variants, identical code) -/

/-- `math.mapRange` over the reals, for the threshold's composition with
`Math.sin` (same formula as `mathMapRange`). -/
noncomputable def mathMapRangeR (value inMin inMax outMin outMax : ℝ) : ℝ :=
  (value - inMin) / (inMax - inMin) * (outMax - outMin) + outMin

/-- `math.mapRange(Math.sin(time * 0.5), -1, 1, 100, 150)` (line 48 of
`src/sketch-03.js`, line 74 of `src/unnamed/part_000`). -/
noncomputable def dynamicThresholdR (time : ℝ) : ℝ :=
  mathMapRangeR (Real.sin (time * (1 / 2))) (-1) 1 100 150

/-- The same threshold as a function of the sine sample `s`, in ℚ. -/
def dynamicThreshold (s : ℚ) : ℚ :=
  mathMapRange s (-1) 1 100 150

/-- `if (dist > dynamicThreshold) continue;`: an edge is drawn exactly when
the distance does not exceed the threshold. -/
def edgeDrawn (d thr : ℚ) : Bool :=
  !decide (d > thr)

/-- `math.mapRange(dist, 0, dynamicThreshold, 0.6, 0)`: the drawn edge's
stroke opacity. -/
def edgeAlpha (d thr : ℚ) : ℚ :=
  mathMapRange d 0 thr (6 / 10) 0

/-- `math.mapRange(dist, 0, dynamicThreshold, 1.5, 0.5)`: the drawn edge's
line width. -/
def edgeWidth (d thr : ℚ) : ℚ :=
  mathMapRange d 0 thr (3 / 2) (1 / 2)

/-- Modelled from the spec: "opacity ... the linear interpolation giving
opacity 0.6 at d = 0 and opacity 0 at d = threshold". -/
def specOpacity (d thr : ℚ) : ℚ :=
  (1 - d / thr) * (6 / 10) + (d / thr) * 0

/-- Modelled from the spec: "width ... the linear interpolation giving
width 1.5 at d = 0 and width 0.5 at d = threshold". -/
def specWidth (d thr : ℚ) : ℚ :=
  (1 - d / thr) * (3 / 2) + (d / thr) * (1 / 2)

/-! ### Helper lemmas -/

/-- After wraparound, a coordinate lies in `[0, limit]` (for a nonnegative
limit), whatever it was before. -/
theorem wrapCoord_mem (limit c : ℚ) (h : 0 ≤ limit) :
    0 ≤ wrapCoord limit c ∧ wrapCoord limit c ≤ limit := by
  unfold wrapCoord
  dsimp only
  split_ifs <;> constructor <;> linarith

/-- `Point.update` of the MIDI variant leaves the updated position inside
the canvas box. -/
theorem updateM_pos_mem (w h : ℚ) (hw : 0 ≤ w) (hh : 0 ≤ h) (p : MPoint) :
    (0 ≤ (updateM w h p).pos.x ∧ (updateM w h p).pos.x ≤ w) ∧
      (0 ≤ (updateM w h p).pos.y ∧ (updateM w h p).pos.y ≤ h) :=
  ⟨wrapCoord_mem w _ hw, wrapCoord_mem h _ hh⟩

/-- `jsRound` is within 1/2 of its argument. -/
theorem jsRound_dist (q : ℚ) : |(jsRound q : ℚ) - q| ≤ 1 / 2 := by
  unfold jsRound
  have h1 : (⌊q + 1 / 2⌋ : ℚ) ≤ q + 1 / 2 := Int.floor_le _
  have h2 : q + 1 / 2 - 1 < (⌊q + 1 / 2⌋ : ℚ) := Int.sub_one_lt_floor _
  rw [abs_le]
  constructor <;> linarith

/-- The note for an x-coordinate inside the canvas lies in `[36, 72]`. -/
theorem midiNoteOf_mem (x : ℚ) (h0 : 0 ≤ x) (h1 : x ≤ 1080) :
    36 ≤ midiNoteOf 1080 x ∧ midiNoteOf 1080 x ≤ 72 := by
  unfold midiNoteOf mapRange jsRound NOTE_MIN NOTE_MAX
  have hlo : (0 : ℚ) ≤ x * 36 / 1080 := by positivity
  have hhi : x * 36 / 1080 ≤ 36 := by
    rw [div_le_iff₀ (by norm_num)]
    nlinarith
  constructor
  · apply Int.le_floor.mpr
    push_cast
    nlinarith
  · have := Int.floor_lt.mpr
      (show (x - 0) * (72 - 36) / (1080 - 0) + 36 + 1 / 2 < ((73 : ℤ) : ℚ) by push_cast; nlinarith)
    omega

/-- The velocity for a y-coordinate inside the canvas lies in `[40, 100]`. -/
theorem velocityOf_mem (y : ℚ) (h0 : 0 ≤ y) (h1 : y ≤ 1350) :
    40 ≤ velocityOf 1350 y ∧ velocityOf 1350 y ≤ 100 := by
  unfold velocityOf mapRange jsRound VELOCITY_MIN VELOCITY_MAX
  have hlo : (0 : ℚ) ≤ y * 60 / 1350 := by positivity
  have hhi : y * 60 / 1350 ≤ 60 := by
    rw [div_le_iff₀ (by norm_num)]
    nlinarith
  constructor
  · apply Int.le_floor.mpr
    push_cast
    nlinarith
  · have := Int.floor_lt.mpr (by push_cast; nlinarith : (y - 0) * (100 - 40) / (1350 - 0) + 40 + 1 / 2 < ((101 : ℤ) : ℚ))
    omega

/-- Note bound for the note computed from a just-updated particle. -/
theorem midiNote_updateM_mem (p : MPoint) :
    36 ≤ midiNoteOf 1080 (updateM 1080 1350 p).pos.x ∧
      midiNoteOf 1080 (updateM 1080 1350 p).pos.x ≤ 72 :=
  midiNoteOf_mem _ (updateM_pos_mem 1080 1350 (by norm_num) (by norm_num) p).1.1
    (updateM_pos_mem 1080 1350 (by norm_num) (by norm_num) p).1.2

/-- Velocity bound for the velocity computed from a just-updated particle. -/
theorem velocity_updateM_mem (p : MPoint) :
    40 ≤ velocityOf 1350 (updateM 1080 1350 p).pos.y ∧
      velocityOf 1350 (updateM 1080 1350 p).pos.y ≤ 100 :=
  velocityOf_mem _ (updateM_pos_mem 1080 1350 (by norm_num) (by norm_num) p).2.1
    (updateM_pos_mem 1080 1350 (by norm_num) (by norm_num) p).2.2


/-- A well-formed MIDI message: a status/note/velocity triple whose note
and velocity lie in the MIDI-valid range `[0, 127]`. -/
def MidiValid (e : List ℤ) : Prop :=
  ∃ st n v, e = [st, n, v] ∧ (0 : ℤ) ≤ n ∧ n ≤ 127 ∧ (0 : ℤ) ≤ v ∧ v ≤ 127

/-- The note-on message sent for a just-updated particle is valid. -/
theorem midiValid_on (p : MPoint) :
    MidiValid [144, midiNoteOf 1080 (updateM 1080 1350 p).pos.x,
      velocityOf 1350 (updateM 1080 1350 p).pos.y] := by
  refine ⟨144, _, _, rfl, ?_, ?_, ?_, ?_⟩
  · exact le_trans (by norm_num) (midiNote_updateM_mem p).1
  · exact le_trans (midiNote_updateM_mem p).2 (by norm_num)
  · exact le_trans (by norm_num) (velocity_updateM_mem p).1
  · exact le_trans (velocity_updateM_mem p).2 (by norm_num)

/-- The note-off message sent for a just-updated particle is valid. -/
theorem midiValid_off (p : MPoint) :
    MidiValid [128, midiNoteOf 1080 (updateM 1080 1350 p).pos.x, 0] := by
  refine ⟨128, _, 0, rfl, ?_, ?_, by norm_num, by norm_num⟩
  · exact le_trans (by norm_num) (midiNote_updateM_mem p).1
  · exact le_trans (midiNote_updateM_mem p).2 (by norm_num)

/-- Every message the MIDI variant's pass sends is a status/note/velocity
triple with note and velocity in the MIDI-valid range. -/
theorem updatePass_events_mem (midi : Bool) (pts : List MPoint) :
    ∀ e ∈ (updatePass midi 1080 1350 pts).2, MidiValid e := by
  induction pts using updatePass.induct midi 1080 1350 with
  | case1 => simp [updatePass]
  | case2 p _p1 _p2 hc =>
      intro e he
      simp only [updatePass] at he
      split_ifs at he <;>
        (try simp only [List.mem_append, List.mem_singleton, List.not_mem_nil, false_or,
          or_false, List.nil_append] at he)
      · rcases he with rfl | rfl
        · exact midiValid_on p
        · exact midiValid_off p
      · rcases he with rfl
        exact midiValid_off p
      · exact absurd hc (by assumption)
      · exact absurd hc (by assumption)
  | case3 p _p1 _p2 hc q rest' ih =>
      intro e he
      simp only [updatePass] at he
      split_ifs at he <;>
        (try simp only [List.mem_append, List.mem_singleton, List.mem_cons, List.not_mem_nil,
          false_or, or_false, List.nil_append, List.cons_append] at he)
      · rcases he with rfl | rfl | he
        · exact midiValid_on p
        · exact midiValid_off p
        · exact ih e he
      · rcases he with rfl | he
        · exact midiValid_off p
        · exact ih e he
      · exact absurd hc (by assumption)
      · exact absurd hc (by assumption)
  | case4 p rest _p1 _p2 hc ih =>
      intro e he
      rw [updatePass.eq_def] at he
      simp only at he
      split_ifs at he <;>
        (try simp only [List.mem_append, List.mem_singleton, List.mem_cons, List.not_mem_nil,
          false_or, or_false, List.nil_append] at he)
      · exact absurd (by assumption) hc
      · exact absurd (by assumption) hc
      · rcases he with rfl | he
        · exact midiValid_on p
        · exact ih e he
      · exact ih e he

/-! ### Claim C10 -/

/-- C10: in the MIDI variant, the note mapping rounds to the nearest
integer (the rounded value is within 1/2 of the exact linear map) and
satisfies the endpoints x = 0 ↦ 36, x = width ↦ 72, y = 0 ↦ 40,
y = height ↦ 100; and every message emitted by the update pass is a
status/note/velocity triple whose note and velocity lie in `[0, 127]`. -/
theorem c10_note_mapping :
    midiNoteOf WIDTH 0 = 36 ∧ midiNoteOf WIDTH WIDTH = 72 ∧
    velocityOf HEIGHT 0 = 40 ∧ velocityOf HEIGHT HEIGHT = 100 ∧
    (∀ x : ℚ, |(midiNoteOf WIDTH x : ℚ) - mathMapRange x 0 WIDTH NOTE_MIN NOTE_MAX| ≤ 1 / 2) ∧
    (∀ y : ℚ, |(velocityOf HEIGHT y : ℚ) - mathMapRange y 0 HEIGHT VELOCITY_MIN VELOCITY_MAX| ≤ 1 / 2) ∧
    ∀ (midi : Bool) (pts : List MPoint),
      ∀ e ∈ (updatePass midi WIDTH HEIGHT pts).2,
        ∃ st n v, e = [st, n, v] ∧ (0 : ℤ) ≤ n ∧ n ≤ 127 ∧ (0 : ℤ) ≤ v ∧ v ≤ 127 := by
  refine ⟨?_, ?_, ?_, ?_, ?_, ?_, ?_⟩
  · norm_num [midiNoteOf, mapRange, jsRound, WIDTH, NOTE_MIN, NOTE_MAX, Int.floor_eq_iff]
  · norm_num [midiNoteOf, mapRange, jsRound, WIDTH, NOTE_MIN, NOTE_MAX, Int.floor_eq_iff]
  · norm_num [velocityOf, mapRange, jsRound, HEIGHT, VELOCITY_MIN, VELOCITY_MAX, Int.floor_eq_iff]
  · norm_num [velocityOf, mapRange, jsRound, HEIGHT, VELOCITY_MIN, VELOCITY_MAX, Int.floor_eq_iff]
  · intro x
    have h : mapRange x 0 WIDTH NOTE_MIN NOTE_MAX =
        jsRound (mathMapRange x 0 WIDTH NOTE_MIN NOTE_MAX) := by
      unfold mapRange mathMapRange
      ring_nf
    unfold midiNoteOf
    rw [h]
    exact jsRound_dist _
  · intro y
    have h : mapRange y 0 HEIGHT VELOCITY_MIN VELOCITY_MAX =
        jsRound (mathMapRange y 0 HEIGHT VELOCITY_MIN VELOCITY_MAX) := by
      unfold mapRange mathMapRange
      ring_nf
    unfold velocityOf
    rw [h]
    exact jsRound_dist _
  · intro midi pts e he
    exact updatePass_events_mem midi pts e (by simpa [WIDTH, HEIGHT] using he)

/-- Witness for C10: the pass over one fresh particle at the canvas centre
with a MIDI output present emits the concrete note-on `[144, 54, 70]`,
which is a valid triple. -/
theorem c10_note_mapping_witness :
    [(144 : ℤ), 54, 70] ∈ (updatePass true WIDTH HEIGHT [⟨⟨540, 675⟩, ⟨0, 0⟩, 3, 0, 60⟩]).2 ∧
    ∃ st n v, [(144 : ℤ), 54, 70] = [st, n, v] ∧ (0 : ℤ) ≤ n ∧ n ≤ 127 ∧ (0 : ℤ) ≤ v ∧ v ≤ 127 := by
  have hmem : [(144 : ℤ), 54, 70] ∈
      (updatePass true WIDTH HEIGHT [⟨⟨540, 675⟩, ⟨0, 0⟩, 3, 0, 60⟩]).2 := by
    norm_num [updatePass, updateM, wrapCoord, midiNoteOf, velocityOf, mapRange, jsRound,
      WIDTH, HEIGHT, FPS, NOTE_MIN, NOTE_MAX, VELOCITY_MIN, VELOCITY_MAX, Int.floor_eq_iff]
  exact ⟨hmem, c10_note_mapping.2.2.2.2.2.2 true [⟨⟨540, 675⟩, ⟨0, 0⟩, 3, 0, 60⟩]
    [(144 : ℤ), 54, 70] hmem⟩

/-! ### Claim C8 -/

/-- C8: the time-varying connection threshold
`mapRange(sin(t*0.5), -1, 1, 100, 150)` lies in `[100, 150]` for every
time t, and equals 125 whenever `sin(0.5*t) = 0`. -/
theorem c8_threshold_range (t : ℝ) :
    (100 ≤ dynamicThresholdR t ∧ dynamicThresholdR t ≤ 150) ∧
      (Real.sin (t * (1 / 2)) = 0 → dynamicThresholdR t = 125) := by
  have h1 : -1 ≤ Real.sin (t * (1 / 2)) := Real.neg_one_le_sin _
  have h2 : Real.sin (t * (1 / 2)) ≤ 1 := Real.sin_le_one _
  unfold dynamicThresholdR mathMapRangeR
  refine ⟨⟨by nlinarith, by nlinarith⟩, ?_⟩
  intro h
  rw [h]
  norm_num

/-- Witness for C8 at t = 0, where the sine vanishes and the threshold is
exactly 125. -/
theorem c8_threshold_range_witness :
    Real.sin ((0 : ℝ) * (1 / 2)) = 0 ∧ dynamicThresholdR 0 = 125 :=
  ⟨by simp, (c8_threshold_range 0).2 (by simp)⟩

/-! ### Claim C9 -/

/-- C9: with the threshold computed from a sine sample `s ∈ [-1, 1]`:
a pair at distance `d > threshold` draws no edge; a pair at
`d ≤ threshold` draws an edge; the drawn opacity and width equal the
linear interpolations with opacity 0.6 and width 1.5 at `d = 0` and
opacity 0 and width 0.5 at `d = threshold` (in particular those endpoint
values hold exactly). -/
theorem c9_edge_rendering (s d : ℚ) (hs : -1 ≤ s) (hs' : s ≤ 1) :
    (d > dynamicThreshold s → edgeDrawn d (dynamicThreshold s) = false) ∧
    (d ≤ dynamicThreshold s → edgeDrawn d (dynamicThreshold s) = true) ∧
    edgeAlpha d (dynamicThreshold s) = specOpacity d (dynamicThreshold s) ∧
    edgeWidth d (dynamicThreshold s) = specWidth d (dynamicThreshold s) ∧
    edgeAlpha 0 (dynamicThreshold s) = 6 / 10 ∧
    edgeWidth 0 (dynamicThreshold s) = 3 / 2 ∧
    edgeAlpha (dynamicThreshold s) (dynamicThreshold s) = 0 ∧
    edgeWidth (dynamicThreshold s) (dynamicThreshold s) = 1 / 2 := by
  have hthr : 100 ≤ dynamicThreshold s := by
    unfold dynamicThreshold mathMapRange
    nlinarith
  have hne : dynamicThreshold s ≠ 0 := by linarith
  refine ⟨?_, ?_, ?_, ?_, ?_, ?_, ?_, ?_⟩
  · intro h
    simp [edgeDrawn, h]
  · intro h
    simp [edgeDrawn, not_lt.mpr h]
  · unfold edgeAlpha specOpacity mathMapRange
    field_simp
    ring
  · unfold edgeWidth specWidth mathMapRange
    field_simp
    ring
  · unfold edgeAlpha mathMapRange
    field_simp
  · unfold edgeWidth mathMapRange
    field_simp
  · unfold edgeAlpha mathMapRange
    field_simp
  · unfold edgeWidth mathMapRange
    field_simp
    try ring

/-- Witness for C9 at sine sample 0 (threshold 125) and distance 50. -/
theorem c9_edge_rendering_witness :
    edgeDrawn 50 (dynamicThreshold 0) = true ∧
    edgeAlpha 50 (dynamicThreshold 0) = specOpacity 50 (dynamicThreshold 0) :=
  ⟨(c9_edge_rendering 0 50 (by norm_num) (by norm_num)).2.1
      (by norm_num [dynamicThreshold, mathMapRange]),
    (c9_edge_rendering 0 50 (by norm_num) (by norm_num)).2.2.1⟩

/-! ### Projection lemmas for the MIDI variant's per-particle step -/

/-- `Point.update` does not read or write the age. -/
@[simp] theorem updateM_age (w h : ℚ) (p : MPoint) : (updateM w h p).age = p.age := rfl

/-- `Point.update` does not read or write the lifespan. -/
@[simp] theorem updateM_lifespan (w h : ℚ) (p : MPoint) :
    (updateM w h p).lifespan = p.lifespan := rfl

/-- The per-visit step adds exactly `1/fps` to the age. -/
@[simp] theorem stepPointM_age (w h : ℚ) (p : MPoint) :
    (stepPointM w h p).age = p.age + 1 / FPS := rfl

/-- The per-visit step preserves the lifespan. -/
@[simp] theorem stepPointM_lifespan (w h : ℚ) (p : MPoint) :
    (stepPointM w h p).lifespan = p.lifespan := rfl

/-! ### Shape lemmas for the MIDI variant's pass -/

/-- The note-on messages sent while visiting one particle (empty unless
the particle was created this frame and a MIDI output is present). -/
def noteOnEvts (midi : Bool) (w h : ℚ) (p : MPoint) : List (List ℤ) :=
  if (updateM w h p).age = 0 ∧ midi then
    [[144, midiNoteOf w (updateM w h p).pos.x, velocityOf h (updateM w h p).pos.y]]
  else []

/-- Visiting a surviving particle: it is updated and aged, and only a
possible note-on is sent. -/
theorem updatePass_cons_live (midi : Bool) (w h : ℚ) (p : MPoint) (rest : List MPoint)
    (hlive : ¬((updateM w h p).age + 1 / FPS ≥ (updateM w h p).lifespan ∧ midi = true)) :
    updatePass midi w h (p :: rest) =
      (stepPointM w h p :: (updatePass midi w h rest).1,
        noteOnEvts midi w h p ++ (updatePass midi w h rest).2) := by
  rw [updatePass.eq_def]
  dsimp only [noteOnEvts]
  rw [if_neg hlive]
  rfl

/-- Visiting an expiring last particle with a MIDI output present: a
note-off is sent and the particle is removed. -/
theorem updatePass_dead_nil (midi : Bool) (w h : ℚ) (p : MPoint)
    (hdead : (updateM w h p).age + 1 / FPS ≥ (updateM w h p).lifespan ∧ midi = true) :
    updatePass midi w h [p] =
      ([], noteOnEvts midi w h p ++ [[128, midiNoteOf w (updateM w h p).pos.x, 0]]) := by
  rw [updatePass.eq_def]
  dsimp only [noteOnEvts]
  rw [if_pos hdead]

/-- Visiting an expiring particle with a MIDI output present when further
particles follow: a note-off is sent, the particle is removed, and the
next particle shifts into the removed index, so the `forEach` skips it:
it is carried to the output without update, draw or age increment. -/
theorem updatePass_dead_cons (midi : Bool) (w h : ℚ) (p q : MPoint) (rest' : List MPoint)
    (hdead : (updateM w h p).age + 1 / FPS ≥ (updateM w h p).lifespan ∧ midi = true) :
    updatePass midi w h (p :: q :: rest') =
      (q :: (updatePass midi w h rest').1,
        noteOnEvts midi w h p ++ [[128, midiNoteOf w (updateM w h p).pos.x, 0]] ++
          (updatePass midi w h rest').2) := by
  rw [updatePass.eq_def]
  dsimp only [noteOnEvts]
  rw [if_pos hdead]

/-! ### Length lemmas for the MIDI variant's pass -/

/-- The pass never grows the collection. -/
theorem updatePass_length_le (midi : Bool) (w h : ℚ) (pts : List MPoint) :
    (updatePass midi w h pts).1.length ≤ pts.length := by
  induction pts using updatePass.induct midi w h with
  | case1 => simp [updatePass]
  | case2 p _p1 _p2 hc =>
      rw [updatePass_dead_nil midi w h p hc]
      simp
  | case3 p _p1 _p2 hc q rest' ih =>
      rw [updatePass_dead_cons midi w h p q rest' hc]
      simp only [List.length_cons]
      omega
  | case4 p rest _p1 _p2 hc ih =>
      rw [updatePass_cons_live midi w h p rest hc]
      simp only [List.length_cons]
      omega

/-- When no visited particle's incremented age reaches its lifespan, the
pass removes nothing: the output has the input's length. -/
theorem updatePass_length_of_young (midi : Bool) (w h : ℚ) (pts : List MPoint)
    (hp : ∀ p ∈ pts, p.age + 1 / FPS < p.lifespan) :
    (updatePass midi w h pts).1.length = pts.length := by
  induction pts with
  | nil => simp [updatePass]
  | cons p rest ih =>
      have hp1 : ¬((updateM w h p).age + 1 / FPS ≥ (updateM w h p).lifespan ∧ midi = true) := by
        simp only [updateM_age, updateM_lifespan]
        exact fun hcon => absurd hcon.1 (not_le.mpr (hp p (List.mem_cons_self p rest)))
      have ih' := ih (fun q hq => hp q (List.mem_cons_of_mem p hq))
      rw [updatePass_cons_live midi w h p rest hp1]
      simp [ih']

/-! ### Claim C1 -/

/-- C1 (evaluation of the code at the failing input): a particle whose age
reaches its lifespan at the end of the step (age 60 ≥ lifespan 60) is NOT
removed when no MIDI output is present — the removal branch is
`age >= lifespan && midiOutput` — while the very same input with a MIDI
output present is removed.  Removal is therefore not independent of the
device's presence. -/
theorem c1_removal_gated_on_midi :
    (updatePass false 1080 1350 [⟨⟨540, 675⟩, ⟨0, 0⟩, 3, 3599 / 60, 60⟩] =
      ([⟨⟨540, 675⟩, ⟨0, 0⟩, 3, 60, 60⟩], [])) ∧
    ((60 : ℚ) ≥ 60) ∧
    ((updatePass true 1080 1350 [⟨⟨540, 675⟩, ⟨0, 0⟩, 3, 3599 / 60, 60⟩]).1 = []) := by
  refine ⟨?_, le_refl _, ?_⟩
  · norm_num [updatePass, updateM, wrapCoord, FPS]
  · norm_num [updatePass, updateM, wrapCoord, FPS]

/-! ### Claim C3 -/

/-- C3 (evaluation of the code at the failing input): in a pass over two
particles where the first expires (MIDI output present), the second
particle is returned exactly as it was — its update, draw and age
increment are all skipped, because the `splice` inside the forward
`forEach` shifts it into the removed index.  Had it been processed, its
age would be 30 + 1/60 ≠ 30. -/
theorem c3_skipped_particle :
    (updatePass true 1080 1350
        [⟨⟨540, 675⟩, ⟨0, 0⟩, 3, 3599 / 60, 60⟩, ⟨⟨500, 600⟩, ⟨0, 0⟩, 3, 30, 60⟩] =
      ([⟨⟨500, 600⟩, ⟨0, 0⟩, 3, 30, 60⟩], [[128, 54, 0]])) ∧
    (30 : ℚ) ≠ 30 + 1 / FPS := by
  constructor
  · norm_num [updatePass, updateM, wrapCoord, midiNoteOf, velocityOf, mapRange, jsRound, FPS,
      NOTE_MIN, NOTE_MAX, VELOCITY_MIN, VELOCITY_MAX, Int.floor_eq_iff]
  · norm_num [FPS]

/-! ### Claim C2 -/

/-- C2 (evaluation of the code at the failing input): starting from the
same one-particle state (its age one frame short of its lifespan) with the
same randomness, one frame with a MIDI output present yields 149 particles
while one frame without yields 150: without the output the expired
particle is never removed, so the particle evolution differs between the
two runs. -/
theorem c2_midi_changes_evolution :
    (stepM true ⟨fun _ => ⟨540, 675, 0, 0, 60⟩, false, ⟨0, 0, 0, 0, 60⟩⟩
        [⟨⟨540, 675⟩, ⟨0, 0⟩, 3, 3599 / 60, 60⟩]).1.length = 149 ∧
    (stepM false ⟨fun _ => ⟨540, 675, 0, 0, 60⟩, false, ⟨0, 0, 0, 0, 60⟩⟩
        [⟨⟨540, 675⟩, ⟨0, 0⟩, 3, 3599 / 60, 60⟩]).1.length = 150 ∧
    (stepM true ⟨fun _ => ⟨540, 675, 0, 0, 60⟩, false, ⟨0, 0, 0, 0, 60⟩⟩
        [⟨⟨540, 675⟩, ⟨0, 0⟩, 3, 3599 / 60, 60⟩]).1 ≠
      (stepM false ⟨fun _ => ⟨540, 675, 0, 0, 60⟩, false, ⟨0, 0, 0, 0, 60⟩⟩
        [⟨⟨540, 675⟩, ⟨0, 0⟩, 3, 3599 / 60, 60⟩]).1 := by
  have hbase : ∀ midi : Bool,
      stepM midi ⟨fun _ => ⟨540, 675, 0, 0, 60⟩, false, ⟨0, 0, 0, 0, 60⟩⟩
          [⟨⟨540, 675⟩, ⟨0, 0⟩, 3, 3599 / 60, 60⟩] =
        updatePass midi WIDTH HEIGHT
          ((⟨⟨540, 675⟩, ⟨0, 0⟩, 3, 3599 / 60, 60⟩ : MPoint) ::
            List.replicate 149 (mkPointM ⟨540, 675, 0, 0, 60⟩)) := by
    intro midi
    unfold stepM chanceSpawnM topUpM
    simp [MIN_ACTIVE_POINTS, List.map_const']
  have hyoung : ∀ p ∈ List.replicate 149 (mkPointM (⟨540, 675, 0, 0, 60⟩ : SpawnM)),
      p.age + 1 / FPS < p.lifespan := by
    intro p hp
    rw [List.eq_of_mem_replicate hp]
    norm_num [mkPointM, FPS]
  have hyoung' : ∀ p ∈ List.replicate 148 (mkPointM (⟨540, 675, 0, 0, 60⟩ : SpawnM)),
      p.age + 1 / FPS < p.lifespan := by
    intro p hp
    rw [List.eq_of_mem_replicate hp]
    norm_num [mkPointM, FPS]
  have hdead : (updateM WIDTH HEIGHT ⟨⟨540, 675⟩, ⟨0, 0⟩, 3, 3599 / 60, 60⟩).age + 1 / FPS ≥
      (updateM WIDTH HEIGHT ⟨⟨540, 675⟩, ⟨0, 0⟩, 3, 3599 / 60, 60⟩).lifespan ∧ true = true := by
    refine ⟨?_, rfl⟩
    simp only [updateM_age, updateM_lifespan]
    norm_num [FPS]
  have hrep : List.replicate 149 (mkPointM (⟨540, 675, 0, 0, 60⟩ : SpawnM)) =
      mkPointM ⟨540, 675, 0, 0, 60⟩ :: List.replicate 148 (mkPointM ⟨540, 675, 0, 0, 60⟩) := by
    rw [show (149 : Nat) = 148 + 1 by norm_num, List.replicate_succ]
  have h1 : (stepM true ⟨fun _ => ⟨540, 675, 0, 0, 60⟩, false, ⟨0, 0, 0, 0, 60⟩⟩
      [⟨⟨540, 675⟩, ⟨0, 0⟩, 3, 3599 / 60, 60⟩]).1.length = 149 := by
    rw [hbase true, hrep, updatePass_dead_cons true WIDTH HEIGHT _ _ _ hdead]
    simp only [List.length_cons]
    rw [updatePass_length_of_young true WIDTH HEIGHT _ hyoung']
    simp
  have h2 : (stepM false ⟨fun _ => ⟨540, 675, 0, 0, 60⟩, false, ⟨0, 0, 0, 0, 60⟩⟩
      [⟨⟨540, 675⟩, ⟨0, 0⟩, 3, 3599 / 60, 60⟩]).1.length = 150 := by
    have hliveF : ¬((updateM WIDTH HEIGHT ⟨⟨540, 675⟩, ⟨0, 0⟩, 3, 3599 / 60, 60⟩).age + 1 / FPS ≥
        (updateM WIDTH HEIGHT ⟨⟨540, 675⟩, ⟨0, 0⟩, 3, 3599 / 60, 60⟩).lifespan ∧ false = true) := by
      simp
    rw [hbase false, updatePass_cons_live false WIDTH HEIGHT _ _ hliveF]
    simp only [List.length_cons]
    rw [updatePass_length_of_young false WIDTH HEIGHT _ hyoung]
    simp
  refine ⟨h1, h2, fun heq => ?_⟩
  have := congrArg List.length heq
  rw [h1, h2] at this
  norm_num at this

/-! ### Claim C4 -/

/-- Wraparound leaves an in-range coordinate unchanged. -/
theorem wrapCoord_eq_self (limit c : ℚ) (h0 : 0 ≤ c) (h1 : c ≤ limit) :
    wrapCoord limit c = c := by
  unfold wrapCoord
  dsimp only
  rw [if_neg (not_lt.mpr h0), if_neg (not_lt.mpr h1)]

/-- Iterating the per-visit step on a motionless particle spawned at the
canvas centre with lifespan 60: after n steps its age is n/60 and nothing
else changed. -/
theorem c4_iter (n : ℕ) :
    (stepPointM 1080 1350)^[n] ⟨⟨540, 675⟩, ⟨0, 0⟩, 3, 0, 60⟩ =
      ⟨⟨540, 675⟩, ⟨0, 0⟩, 3, (n : ℚ) / 60, 60⟩ := by
  induction n with
  | zero => simp
  | succ n ih =>
      rw [Function.iterate_succ_apply', ih]
      simp only [stepPointM, updateM]
      rw [wrapCoord_eq_self 1080 (540 + 0) (by norm_num) (by norm_num),
        wrapCoord_eq_self 1350 (675 + 0) (by norm_num) (by norm_num)]
      simp only [MPoint.mk.injEq, Vec.mk.injEq, FPS]
      norm_num
      push_cast
      ring

/-- C4 counterexample: with lifespan 60 at fps 60, after 60 steps the
particle's age is 1, not 60, and the 60th step does not remove it: the
pass still returns it.  "Removed on the 60th step" fails on the code. -/
theorem c4_counterexample :
    ((stepPointM 1080 1350)^[60] ⟨⟨540, 675⟩, ⟨0, 0⟩, 3, 0, 60⟩).age = 1 ∧
    ¬((1 : ℚ) ≥ 60) ∧
    (updatePass true 1080 1350 [(stepPointM 1080 1350)^[59] ⟨⟨540, 675⟩, ⟨0, 0⟩, 3, 0, 60⟩]).1 =
      [⟨⟨540, 675⟩, ⟨0, 0⟩, 3, 1, 60⟩] := by
  refine ⟨?_, by norm_num, ?_⟩
  · rw [c4_iter]
    norm_num
  · rw [c4_iter]
    norm_num [updatePass, updateM, wrapCoord, FPS]

/-- C4 amended: with lifespan 60 at fps 60, the age after n steps is n/60,
which reaches 60 exactly at n = 3600; the particle is removed on the
3600th step, with its note-off `[128, 54, 0]` emitted on that step just
before removal (MIDI output present). -/
theorem c4_amended :
    (∀ n : ℕ, ((stepPointM 1080 1350)^[n] ⟨⟨540, 675⟩, ⟨0, 0⟩, 3, 0, 60⟩).age = (n : ℚ) / 60) ∧
    (∀ n : ℕ, (((stepPointM 1080 1350)^[n] ⟨⟨540, 675⟩, ⟨0, 0⟩, 3, 0, 60⟩).age ≥ 60 ↔ 3600 ≤ n)) ∧
    updatePass true 1080 1350 [(stepPointM 1080 1350)^[3599] ⟨⟨540, 675⟩, ⟨0, 0⟩, 3, 0, 60⟩] =
      ([], [[128, 54, 0]]) := by
  refine ⟨fun n => by rw [c4_iter], fun n => ?_, ?_⟩
  · rw [c4_iter]
    show (n : ℚ) / 60 ≥ 60 ↔ 3600 ≤ n
    rw [ge_iff_le, le_div_iff₀ (by norm_num : (0 : ℚ) < 60)]
    norm_num
  · rw [c4_iter]
    norm_num [updatePass, updateM, wrapCoord, midiNoteOf, velocityOf, mapRange, jsRound, FPS,
      NOTE_MIN, NOTE_MAX, VELOCITY_MIN, VELOCITY_MAX, Int.floor_eq_iff]

/-! ### Claim C5 -/

/-- Iterating the per-visit step on a particle spawned at x = 100 with
velocity (0.1, 0) and lifespan 60: for n ≤ 3600 no wraparound happens, so
after n steps it sits at x = 100 + n/10 with age n/60. -/
theorem c5_iter (n : ℕ) (hn : n ≤ 3600) :
    (stepPointM 1080 1350)^[n] ⟨⟨100, 675⟩, ⟨1 / 10, 0⟩, 3, 0, 60⟩ =
      ⟨⟨100 + (n : ℚ) / 10, 675⟩, ⟨1 / 10, 0⟩, 3, (n : ℚ) / 60, 60⟩ := by
  induction n with
  | zero => simp
  | succ n ih =>
      have hb : n ≤ 3600 := by omega
      have hcast : (n : ℚ) ≤ 3600 := by exact_mod_cast hb
      rw [Function.iterate_succ_apply', ih hb]
      simp only [stepPointM, updateM]
      rw [wrapCoord_eq_self 1080 (100 + (n : ℚ) / 10 + 1 / 10) (by positivity) (by linarith),
        wrapCoord_eq_self 1350 (675 + 0) (by norm_num) (by norm_num)]
      simp only [MPoint.mk.injEq, Vec.mk.injEq, FPS]
      norm_num
      constructor <;> (push_cast; ring)

/-- C5 counterexample: the note-on emitted when this particle is created
carries note 39, but the note-off emitted when it is removed 3600 frames
later carries note 51: the note is recomputed from the particle's current
(moved) position, so the note-off does not match the note-on. -/
theorem c5_counterexample :
    (updatePass true 1080 1350 [⟨⟨100, 675⟩, ⟨1 / 10, 0⟩, 3, 0, 60⟩]).2 = [[144, 39, 70]] ∧
    (updatePass true 1080 1350
        [(stepPointM 1080 1350)^[3599] ⟨⟨100, 675⟩, ⟨1 / 10, 0⟩, 3, 0, 60⟩]).2 =
      [[128, 51, 0]] ∧
    (39 : ℤ) ≠ 51 := by
  refine ⟨?_, ?_, by norm_num⟩
  · norm_num [updatePass, updateM, wrapCoord, midiNoteOf, velocityOf, mapRange, jsRound, FPS,
      NOTE_MIN, NOTE_MAX, VELOCITY_MIN, VELOCITY_MAX, Int.floor_eq_iff]
  · rw [c5_iter 3599 (by norm_num)]
    norm_num [updatePass, updateM, wrapCoord, midiNoteOf, velocityOf, mapRange, jsRound, FPS,
      NOTE_MIN, NOTE_MAX, VELOCITY_MIN, VELOCITY_MAX, Int.floor_eq_iff]

/-- C5 amended: on a frame where a visited particle's incremented age
reaches its lifespan and a MIDI output is present, the pass emits the
note-off `[128, note, 0]` — note computed from the particle's position on
that frame, not from its creation position — and removes the particle
(the output is strictly shorter than the input). -/
theorem c5_amended (p : MPoint) (rest : List MPoint)
    (hdead : (stepPointM 1080 1350 p).age ≥ (stepPointM 1080 1350 p).lifespan) :
    [128, midiNoteOf 1080 (updateM 1080 1350 p).pos.x, 0] ∈
      (updatePass true 1080 1350 (p :: rest)).2 ∧
    (updatePass true 1080 1350 (p :: rest)).1.length < (p :: rest).length := by
  have hdead' : (updateM 1080 1350 p).age + 1 / FPS ≥ (updateM 1080 1350 p).lifespan ∧
      (true : Bool) = true := ⟨by simpa using hdead, rfl⟩
  cases rest with
  | nil =>
      rw [updatePass_dead_nil true 1080 1350 p hdead']
      refine ⟨?_, by simp⟩
      simp
  | cons q rest' =>
      rw [updatePass_dead_cons true 1080 1350 p q rest' hdead']
      refine ⟨by simp, ?_⟩
      have := updatePass_length_le true 1080 1350 rest'
      simp only [List.length_cons]
      omega

/-- Witness for C5's amended theorem: a motionless centred particle at the
end of its lifespan, alone in the field. -/
theorem c5_amended_witness :
    [128, midiNoteOf 1080 (updateM 1080 1350 ⟨⟨540, 675⟩, ⟨0, 0⟩, 3, 60, 60⟩).pos.x, 0] ∈
      (updatePass true 1080 1350 [⟨⟨540, 675⟩, ⟨0, 0⟩, 3, 60, 60⟩]).2 ∧
    (updatePass true 1080 1350 [(⟨⟨540, 675⟩, ⟨0, 0⟩, 3, 60, 60⟩ : MPoint)]).1.length < 1 :=
  c5_amended ⟨⟨540, 675⟩, ⟨0, 0⟩, 3, 60, 60⟩ []
    (by norm_num [stepPointM, updateM, wrapCoord, FPS])

/-! ### Fixed-lifespan variant: projection and shape lemmas -/

/-- `applyBoundaries` only adjusts the velocity. -/
@[simp] theorem applyBoundaries_age (w h : ℚ) (p : FPoint) :
    (applyBoundaries w h p).age = p.age := rfl

/-- `Point.update` of the fixed variant does not read or write the age. -/
@[simp] theorem updateF_age (w h : ℚ) (o : FJit) (p : FPoint) :
    (updateF w h o p).age = p.age := rfl

/-- Visiting a surviving particle in the fixed variant's pass. -/
theorem updatePassF_cons_live (w h : ℚ) (o : Nat → FJit) (k : Nat) (p : FPoint)
    (rest : List FPoint)
    (hlive : ¬((updateF w h (o k) p).age + 1 / FPS ≥ POINT_LIFESPAN)) :
    updatePassF w h o k (p :: rest) =
      { updateF w h (o k) p with age := (updateF w h (o k) p).age + 1 / FPS } ::
        updatePassF w h o (k + 1) rest := by
  rw [updatePassF.eq_def]
  dsimp only
  rw [if_neg hlive]

/-- Visiting an expiring last particle in the fixed variant's pass. -/
theorem updatePassF_dead_nil (w h : ℚ) (o : Nat → FJit) (k : Nat) (p : FPoint)
    (hdead : (updateF w h (o k) p).age + 1 / FPS ≥ POINT_LIFESPAN) :
    updatePassF w h o k [p] = [] := by
  rw [updatePassF.eq_def]
  dsimp only
  rw [if_pos hdead]

/-- Visiting an expiring particle with a successor in the fixed variant's
pass: the successor is carried over unvisited. -/
theorem updatePassF_dead_cons (w h : ℚ) (o : Nat → FJit) (k : Nat) (p q : FPoint)
    (rest' : List FPoint)
    (hdead : (updateF w h (o k) p).age + 1 / FPS ≥ POINT_LIFESPAN) :
    updatePassF w h o k (p :: q :: rest') = q :: updatePassF w h o (k + 1) rest' := by
  rw [updatePassF.eq_def]
  dsimp only
  rw [if_pos hdead]

/-- When no visited particle expires, the fixed variant's pass keeps every
particle and ages each by exactly 1/fps. -/
theorem updatePassF_young (w h : ℚ) (o : Nat → FJit) (k : Nat) (pts : List FPoint)
    (hy : ∀ p ∈ pts, p.age + 1 / FPS < POINT_LIFESPAN) :
    (updatePassF w h o k pts).length = pts.length ∧
      ∀ q ∈ updatePassF w h o k pts, ∃ p ∈ pts, q.age = p.age + 1 / FPS := by
  induction pts generalizing k with
  | nil => simp [updatePassF]
  | cons p rest ih =>
      have hlive : ¬((updateF w h (o k) p).age + 1 / FPS ≥ POINT_LIFESPAN) := by
        simp only [updateF_age]
        exact not_le.mpr (hy p (List.mem_cons_self p rest))
      rw [updatePassF_cons_live w h o k p rest hlive]
      obtain ⟨hl, ha⟩ := ih (k + 1) (fun q hq => hy q (List.mem_cons_of_mem p hq))
      refine ⟨by simp [hl], ?_⟩
      intro q hq
      rcases List.mem_cons.mp hq with rfl | hq
      · exact ⟨p, List.mem_cons_self p rest, by simp⟩
      · obtain ⟨p0, hp0, he⟩ := ha q hq
        exact ⟨p0, List.mem_cons_of_mem p hp0, he⟩

/-- One frame of the fixed variant from the empty field with the
probabilistic spawn not firing: top up to the floor, then the pass. -/
theorem stepF_empty (r : FrameRngF) (hr : r.chance = false) :
    stepF r [] = updatePassF WIDTH HEIGHT r.jit 0
      ((List.range 150).map (fun i => mkPointF (r.spawn i))) := by
  unfold stepF chanceSpawnF topUpF
  rw [hr]
  simp [MIN_ACTIVE_POINTS]

/-! ### Claim C6 -/

/-- C6 counterexample: in the fixed variant, a pass over two particles in
which the first expires returns the second particle completely unchanged —
it survived the frame, but its age was not incremented by 1/fps (it was
skipped by the `splice`-during-`forEach`). -/
theorem c6_counterexample :
    (updatePassF 1080 1350 (fun _ => ⟨0, 0, 0, 0⟩) 0
        [⟨⟨540, 675⟩, ⟨0, 0⟩, ⟨0, 0⟩, 3, 7199 / 60⟩, ⟨⟨540, 675⟩, ⟨0, 0⟩, ⟨0, 0⟩, 3, 30⟩] =
      [⟨⟨540, 675⟩, ⟨0, 0⟩, ⟨0, 0⟩, 3, 30⟩]) ∧
    (30 : ℚ) ≠ 30 + 1 / FPS := by
  constructor
  · norm_num [updatePassF, updateF, applyBoundaries, mathClamp, wrapCoord, POINT_LIFESPAN, FPS]
  · norm_num [FPS]

/-- C6 amended: every particle surviving the fixed variant's pass stems
from an input particle whose age either grew by exactly 1/fps (it was
visited) or is unchanged (it was skipped after a removal); in both cases
no age ever decreases. -/
theorem c6_amended (w h : ℚ) (o : Nat → FJit) (k : Nat) (pts : List FPoint) :
    ∀ p ∈ updatePassF w h o k pts,
      ∃ p0 ∈ pts, (p.age = p0.age + 1 / FPS ∨ p = p0) ∧ p0.age ≤ p.age := by
  induction k, pts using updatePassF.induct w h o with
  | case1 k => simp [updatePassF]
  | case2 k p _p1 _p2 hc =>
      rw [updatePassF_dead_nil w h o k p hc]
      simp
  | case3 k p _p1 _p2 hc q rest' ih =>
      rw [updatePassF_dead_cons w h o k p q rest' hc]
      intro x hx
      rcases List.mem_cons.mp hx with rfl | hx
      · exact ⟨x, List.mem_cons_of_mem p (List.mem_cons_self x rest'), Or.inr rfl, le_refl _⟩
      · obtain ⟨p0, hp0, hd, hle⟩ := ih x hx
        exact ⟨p0, List.mem_cons_of_mem p (List.mem_cons_of_mem q hp0), hd, hle⟩
  | case4 k p rest _p1 _p2 hc ih =>
      rw [updatePassF_cons_live w h o k p rest hc]
      intro x hx
      rcases List.mem_cons.mp hx with rfl | hx
      · refine ⟨p, List.mem_cons_self p rest, Or.inl (by simp), ?_⟩
        simp only [updateF_age]
        norm_num [FPS]
      · obtain ⟨p0, hp0, hd, hle⟩ := ih x hx
        exact ⟨p0, List.mem_cons_of_mem p hp0, hd, hle⟩

/-- Witness for C6's amended theorem, at the skipped particle of the
two-particle pass: its source is itself, unchanged. -/
theorem c6_amended_witness :
    ∃ p0 ∈ [(⟨⟨540, 675⟩, ⟨0, 0⟩, ⟨0, 0⟩, 3, 7199 / 60⟩ : FPoint),
        ⟨⟨540, 675⟩, ⟨0, 0⟩, ⟨0, 0⟩, 3, 30⟩],
      ((⟨⟨540, 675⟩, ⟨0, 0⟩, ⟨0, 0⟩, 3, 30⟩ : FPoint).age = p0.age + 1 / FPS ∨
        (⟨⟨540, 675⟩, ⟨0, 0⟩, ⟨0, 0⟩, 3, 30⟩ : FPoint) = p0) ∧
      p0.age ≤ (⟨⟨540, 675⟩, ⟨0, 0⟩, ⟨0, 0⟩, 3, 30⟩ : FPoint).age :=
  c6_amended 1080 1350 (fun _ => ⟨0, 0, 0, 0⟩) 0
    [⟨⟨540, 675⟩, ⟨0, 0⟩, ⟨0, 0⟩, 3, 7199 / 60⟩, ⟨⟨540, 675⟩, ⟨0, 0⟩, ⟨0, 0⟩, 3, 30⟩]
    ⟨⟨540, 675⟩, ⟨0, 0⟩, ⟨0, 0⟩, 3, 30⟩
    (by norm_num [updatePassF, updateF, applyBoundaries, mathClamp, wrapCoord,
      POINT_LIFESPAN, FPS])

/-! ### Claim C7 -/

/-- C7 counterexample: starting the fixed variant from an empty field, one
frame does produce exactly 150 particles, but they do not all have age 0:
every particle was aged by 1/fps during the same frame's pass. -/
theorem c7_counterexample :
    ((stepF ⟨fun _ => ⟨540, 675, 0, 0⟩, false, ⟨0, 0, 0, 0⟩, fun _ => ⟨0, 0, 0, 0⟩⟩ []).length =
      150) ∧
    ¬(∀ p ∈ stepF ⟨fun _ => ⟨540, 675, 0, 0⟩, false, ⟨0, 0, 0, 0⟩, fun _ => ⟨0, 0, 0, 0⟩⟩ [],
        p.age = 0) := by
  have hy : ∀ p ∈ (List.range 150).map
      (fun i => mkPointF ((⟨540, 675, 0, 0⟩ : SpawnF))),
      p.age + 1 / FPS < POINT_LIFESPAN := by
    intro p hp
    simp only [List.mem_map] at hp
    obtain ⟨i, _, rfl⟩ := hp
    norm_num [mkPointF, FPS, POINT_LIFESPAN]
  have hstep : stepF ⟨fun _ => ⟨540, 675, 0, 0⟩, false, ⟨0, 0, 0, 0⟩, fun _ => ⟨0, 0, 0, 0⟩⟩ [] =
      updatePassF WIDTH HEIGHT (fun _ => ⟨0, 0, 0, 0⟩) 0
        ((List.range 150).map (fun i => mkPointF (⟨540, 675, 0, 0⟩ : SpawnF))) :=
    stepF_empty _ rfl
  obtain ⟨hl, ha⟩ := updatePassF_young WIDTH HEIGHT (fun _ => ⟨0, 0, 0, 0⟩) 0
    ((List.range 150).map (fun i => mkPointF (⟨540, 675, 0, 0⟩ : SpawnF))) hy
  have hlen : (stepF ⟨fun _ => ⟨540, 675, 0, 0⟩, false, ⟨0, 0, 0, 0⟩,
      fun _ => ⟨0, 0, 0, 0⟩⟩ []).length = 150 := by
    rw [hstep, hl]
    simp
  refine ⟨hlen, fun hall => ?_⟩
  have hpos : 0 < (stepF ⟨fun _ => ⟨540, 675, 0, 0⟩, false, ⟨0, 0, 0, 0⟩,
      fun _ => ⟨0, 0, 0, 0⟩⟩ []).length := by
    rw [hlen]
    norm_num
  obtain ⟨p, hp⟩ := List.exists_mem_of_length_pos hpos
  have hp0 := hall p hp
  rw [hstep] at hp
  obtain ⟨q, hq, he⟩ := ha p hp
  simp only [List.mem_map] at hq
  obtain ⟨i, _, rfl⟩ := hq
  rw [hp0] at he
  norm_num [mkPointF, FPS] at he

/-- C7 amended: starting from the empty field with floor 150 (and the
probabilistic extra spawn not firing), after one frame exactly 150
particles exist, all with age 1/fps: they are spawned with age 0 and then
aged once by the same frame's pass. -/
theorem c7_amended (r : FrameRngF) (hr : r.chance = false) :
    (stepF r []).length = 150 ∧ ∀ p ∈ stepF r [], p.age = 1 / FPS := by
  have hy : ∀ p ∈ (List.range 150).map (fun i => mkPointF (r.spawn i)),
      p.age + 1 / FPS < POINT_LIFESPAN := by
    intro p hp
    simp only [List.mem_map] at hp
    obtain ⟨i, _, rfl⟩ := hp
    norm_num [mkPointF, FPS, POINT_LIFESPAN]
  obtain ⟨hl, ha⟩ := updatePassF_young WIDTH HEIGHT r.jit 0
    ((List.range 150).map (fun i => mkPointF (r.spawn i))) hy
  rw [stepF_empty r hr]
  refine ⟨by rw [hl]; simp, ?_⟩
  intro p hp
  obtain ⟨q, hq, he⟩ := ha p hp
  simp only [List.mem_map] at hq
  obtain ⟨i, _, rfl⟩ := hq
  rw [he]
  norm_num [mkPointF]

/-- Witness for C7's amended theorem at a concrete oracle. -/
theorem c7_amended_witness :
    (stepF ⟨fun _ => ⟨540, 675, 0, 0⟩, false, ⟨0, 0, 0, 0⟩, fun _ => ⟨0, 0, 0, 0⟩⟩ []).length =
      150 ∧
    ∀ p ∈ stepF ⟨fun _ => ⟨540, 675, 0, 0⟩, false, ⟨0, 0, 0, 0⟩, fun _ => ⟨0, 0, 0, 0⟩⟩ [],
      p.age = 1 / FPS :=
  c7_amended ⟨fun _ => ⟨540, 675, 0, 0⟩, false, ⟨0, 0, 0, 0⟩, fun _ => ⟨0, 0, 0, 0⟩⟩ rfl
